import Mathlib

/-
Verification of the greeting CLI (src/src/main.rs).

The program parses at most two options, formats a greeting, prints one
line to standard output and exits.  Strings are modelled by Lean `String`
(Rust strings are sequences of characters here; no byte-level behaviour
is relevant).  Standard output and standard error are modelled as lists
of printed lines; `println!` appends one line.
-/

namespace Greeting

/-- Parsed configuration, mirroring `struct Args` in src/src/main.rs:
field `user` (default "World") and field `json` (default false). -/
structure Args where
  user : String
  json : Bool
deriving DecidableEq, Repr

/-- Mirrors `struct Output` in src/src/main.rs: one field `message`. -/
structure Output where
  message : String
deriving DecidableEq, Repr

/-- Mirrors `Output::to_json` in src/src/main.rs: raw interpolation of the
message between the literal pieces, with no escaping applied. -/
def Output.to_json (o : Output) : String :=
  "\x7b\"message\": \"" ++ o.message ++ "\"\x7d"

/-- Mirrors `Output::to_plain_text` in src/src/main.rs: returns a copy of
the stored message. -/
def Output.to_plain_text (o : Output) : String :=
  o.message

/-- The greeting built in `main`: `format!("Hello, \x7b\x7d!", args.user)`. -/
def greeting (name : String) : String :=
  "Hello, " ++ name ++ "!"

/-- Result of one process run: lines printed to standard output, lines
printed to standard error, and the exit status. -/
structure RunResult where
  stdout : List String
  stderr : List String
  exitCode : Nat
deriving DecidableEq, Repr

/-- The body of `main` after argument parsing succeeded (lines 33-41 of
src/src/main.rs): build the `Output`, then print its JSON form when
`json` is set and its plain form otherwise; the process exits with 0. -/
def runConfig (a : Args) : RunResult :=
  let output : Output := Output.mk (greeting a.user)
  if a.json then
    RunResult.mk [output.to_json] [] 0
  else
    RunResult.mk [output.to_plain_text] [] 0

/-- Argument-parsing error, as the spec's single `ArgumentError` kind:
either an option expecting a value did not get one, or a token was not
recognized. -/
inductive ParseError where
  | missingValue (opt : String)
  | unexpected (tok : String)
deriving DecidableEq, Repr

/-- Result of argument parsing: a configuration, a help request, or an
error. -/
inductive ParseResult where
  | ok (a : Args)
  | help
  | error (e : ParseError)
deriving DecidableEq, Repr

/-- Whether a token begins with a hyphen, i.e. is written as a flag. -/
def hyphenStart (s : String) : Bool :=
  match s.data with
  | [] => false
  | c :: _ => c = '-'

/-- Modelled from the spec: the option loop of the argument parser
(the `clap` derive on `struct Args` is library code, not in src/).  It
recognizes `--json`, and `--user`/`-u` followed by a value; a value may
not itself begin with a hyphen (an option expecting a value must get
one); any other token is an error. -/
def parseLoop : List String → Args → Except ParseError Args
  | [], acc => Except.ok acc
  | tok :: rest, acc =>
    if tok = "--json" then
      parseLoop rest (Args.mk acc.user true)
    else if tok = "--user" ∨ tok = "-u" then
      match rest with
      | [] => Except.error (ParseError.missingValue "--user")
      | v :: rest2 =>
        if hyphenStart v then
          Except.error (ParseError.missingValue "--user")
        else
          parseLoop rest2 (Args.mk v acc.json)
    else
      Except.error (ParseError.unexpected tok)

/-- Modelled from the spec: `Args::parse`.  A help request, when present,
prints usage and terminates successfully before any other processing;
otherwise the option loop runs starting from the defaults
(`user = "World"`, `json = false`). -/
def parseArgs (argv : List String) : ParseResult :=
  if "--help" ∈ argv then
    ParseResult.help
  else
    match parseLoop argv (Args.mk "World" false) with
    | Except.ok a => ParseResult.ok a
    | Except.error e => ParseResult.error e

/-- Modelled from the spec: the usage text printed for `--help`. -/
def usageText : String :=
  "Usage: greeting [OPTIONS]"

/-- Modelled from the spec: the diagnostic printed to standard error when
argument parsing fails. -/
def errMsg : ParseError → String
  | ParseError.missingValue opt => "error: a value is required for " ++ opt
  | ParseError.unexpected tok => "error: unexpected argument " ++ tok

/-- One whole process run on an argument list (program name excluded):
parse, then either print the greeting and exit 0, print usage and exit 0,
or print a diagnostic to standard error and exit 2. -/
def runArgv (argv : List String) : RunResult :=
  match parseArgs argv with
  | ParseResult.ok a => runConfig a
  | ParseResult.help => RunResult.mk [usageText] [] 0
  | ParseResult.error e => RunResult.mk [] [errMsg e] 2

/-- The flags the CLI surface recognizes. -/
def recognizedFlag (t : String) : Bool :=
  t = "--user" || t = "-u" || t = "--json" || t = "--help"

/-- A character that standard JSON string escaping leaves unchanged: not
a double quote, not a backslash, and not a control character. -/
def JsonSafeChar (c : Char) : Prop :=
  c ≠ '"' ∧ c ≠ '\\' ∧ 32 ≤ c.toNat

instance (c : Char) : Decidable (JsonSafeChar c) := by
  unfold JsonSafeChar
  infer_instance

/-- A string whose characters all need no JSON escaping. -/
def jsonSafe (s : String) : Prop :=
  ∀ c ∈ s.data, JsonSafeChar c

instance (s : String) : Decidable (jsonSafe s) := by
  unfold jsonSafe
  exact List.decidableBAll _ _

/-- Value of a hexadecimal digit, used for JSON \u escapes. -/
def hexVal (c : Char) : Option Nat :=
  if '0' ≤ c ∧ c ≤ '9' then some (c.toNat - '0'.toNat)
  else if 'a' ≤ c ∧ c ≤ 'f' then some (c.toNat - 'a'.toNat + 10)
  else if 'A' ≤ c ∧ c ≤ 'F' then some (c.toNat - 'A'.toNat + 10)
  else none

/-- Meaning of a single-character JSON escape sequence. -/
def unescapeChar (c : Char) : Option Char :=
  if c = '"' then some '"'
  else if c = '\\' then some '\\'
  else if c = '/' then some '/'
  else if c = 'b' then some '\x08'
  else if c = 'f' then some '\x0c'
  else if c = 'n' then some '\n'
  else if c = 'r' then some '\r'
  else if c = 't' then some '\t'
  else none

/-- Standard JSON string-literal body: reads characters after an opening
double quote up to the closing one, applying escape sequences, rejecting
raw control characters; returns the decoded characters and the remaining
input.  Written from the JSON grammar to state what "deserializes"
means; it is a checker for the claims, not code of the repository. -/
def parseJsonChars : List Char → Option (List Char × List Char)
  | [] => none
  | c :: rest =>
    if c = '"' then some ([], rest)
    else if c = '\\' then
      match rest with
      | [] => none
      | 'u' :: h1 :: h2 :: h3 :: h4 :: rest2 =>
        match hexVal h1, hexVal h2, hexVal h3, hexVal h4 with
        | some a, some b, some d1, some d2 =>
          let n : Nat := ((a * 16 + b) * 16 + d1) * 16 + d2
          if n.isValidChar then
            match parseJsonChars rest2 with
            | some p => some (Char.ofNat n :: p.1, p.2)
            | none => none
          else none
        | _, _, _, _ => none
      | e :: rest2 =>
        match unescapeChar e with
        | some d =>
          match parseJsonChars rest2 with
          | some p => some (d :: p.1, p.2)
          | none => none
        | none => none
    else if c.toNat < 32 then none
    else
      match parseJsonChars rest with
      | some p => some (c :: p.1, p.2)
      | none => none

/-- JSON whitespace characters. -/
def isWsChar (c : Char) : Bool :=
  c = ' ' || c = '\t' || c = '\n' || c = '\r'

/-- Skip leading JSON whitespace. -/
def skipWs : List Char → List Char
  | [] => []
  | c :: rest => if isWsChar c then skipWs rest else c :: rest

/-- One member of a JSON object whose value is a string literal: a key
string, whitespace, a colon, whitespace, and a value string. -/
def parseMember (l : List Char) : Option ((String × String) × List Char) :=
  match l with
  | [] => none
  | c :: rest =>
    if c = '"' then
      match parseJsonChars rest with
      | none => none
      | some kp =>
        match skipWs kp.2 with
        | [] => none
        | c2 :: rest2 =>
          if c2 = ':' then
            match skipWs rest2 with
            | [] => none
            | c3 :: rest3 =>
              if c3 = '"' then
                match parseJsonChars rest3 with
                | some vp => some ((String.mk kp.1, String.mk vp.1), vp.2)
                | none => none
              else none
          else none
    else none

/-- Comma-separated object members, with fuel bounding the recursion. -/
def parseMembersAux : Nat → List Char → Option (List (String × String) × List Char)
  | 0, _ => none
  | fuel + 1, l =>
    match parseMember l with
    | none => none
    | some kvr =>
      match skipWs kvr.2 with
      | [] => some ([kvr.1], [])
      | c :: rest2 =>
        if c = ',' then
          match parseMembersAux fuel (skipWs rest2) with
          | some p => some (kvr.1 :: p.1, p.2)
          | none => none
        else some ([kvr.1], c :: rest2)

/-- Deserialize a whole JSON document that is an object whose values are
string literals (the only shape the program can print): `none` when the
text is not valid JSON of this shape, otherwise the key-value list. -/
def parseStringObject (s : String) : Option (List (String × String)) :=
  match skipWs s.data with
  | [] => none
  | c :: rest =>
    if c = '\x7b' then
      match skipWs rest with
      | [] => none
      | c2 :: rest2 =>
        if c2 = '\x7d' then
          if skipWs rest2 = [] then some [] else none
        else
          match parseMembersAux ((c2 :: rest2).length + 1) (c2 :: rest2) with
          | none => none
          | some msr =>
            match skipWs msr.2 with
            | [] => none
            | c3 :: rest3 =>
              if c3 = '\x7d' then
                if skipWs rest3 = [] then some msr.1 else none
              else none
    else none

end Greeting

namespace Greeting

/-- Claim C1: for every string N, when the parsed configuration has
user name N and JSON output off, the program writes exactly the single
line "Hello, N!" to standard output, nothing to standard error, and
exits with status 0. -/
theorem c1_plain_mode_output (N : String) :
    runConfig (Args.mk N false) = RunResult.mk ["Hello, " ++ N ++ "!"] [] 0 :=
  rfl

/-- Claim C3: parsing an empty argument list yields the default
configuration (user "World", JSON off), and the run prints exactly
"Hello, World!" with exit status 0. -/
theorem c3_default_run :
    parseArgs [] = ParseResult.ok (Args.mk "World" false) ∧
      runArgv [] = RunResult.mk ["Hello, World!"] [] 0 := by
  constructor
  · rfl
  · rfl

/-- Claim C4: for every message m, `Output.to_json` returns the literal
concatenation of the opening brace-quote piece, m unchanged, and the
closing piece; the character-level form shows m's characters embedded
raw, so no escaping transformation is applied. -/
theorem c4_to_json_raw (m : String) :
    Output.to_json (Output.mk m) = "\x7b\"message\": \"" ++ m ++ "\"\x7d" ∧
      (Output.to_json (Output.mk m)).data =
        '\x7b' :: '"' :: 'm' :: 'e' :: 's' :: 's' :: 'a' :: 'g' :: 'e' ::
          '"' :: ':' :: ' ' :: '"' :: (m.data ++ ['"', '\x7d']) :=
  ⟨rfl, rfl⟩

/-- Claim C7: formatting cannot fail: for every configuration the run
after parsing produces exactly one output line, no error output, and
exit status 0. -/
theorem c7_formatting_total (a : Args) :
    ∃ line, runConfig a = RunResult.mk [line] [] 0 := by
  cases a with
  | mk u j =>
    cases j with
    | false => exact ⟨greeting u, rfl⟩
    | true => exact ⟨Output.to_json (Output.mk (greeting u)), rfl⟩

/-- Claim C9: the run result is a deterministic function of the argument
list alone: two runs on equal argument lists produce equal output. -/
theorem c9_deterministic (a b : List String) (h : a = b) :
    runArgv a = runArgv b := by
  rw [h]

/-- Witness for C9 at a concrete argument list. -/
theorem c9_deterministic_witness :
    runArgv ["--user", "Ann"] = runArgv ["--user", "Ann"] :=
  c9_deterministic ["--user", "Ann"] ["--user", "Ann"] rfl

/-- Claim C10: the plain-text formatter is the identity on the stored
message. -/
theorem c10_plain_text_identity (o : Output) :
    o.to_plain_text = o.message :=
  rfl

/-- Helper: when the option loop succeeds, every hyphen-initial token of
the argument list is one of the recognized option spellings. -/
theorem parseLoop_ok_flags (n : Nat) :
    ∀ argv : List String, argv.length ≤ n → ∀ acc a,
      parseLoop argv acc = Except.ok a →
      ∀ t ∈ argv, hyphenStart t = true → recognizedFlag t = true := by
  induction n with
  | zero =>
    intro argv hlen acc a hp t ht hh
    have hnil : argv = [] := List.length_eq_zero.mp (Nat.le_zero.mp hlen)
    subst hnil
    exact absurd ht (List.not_mem_nil t)
  | succ n ih =>
    intro argv hlen acc a hp t ht hh
    cases argv with
    | nil => exact absurd ht (List.not_mem_nil t)
    | cons tok rest =>
      rw [parseLoop.eq_def] at hp
      simp only [] at hp
      by_cases hj : tok = "--json"
      · rw [if_pos hj] at hp
        rcases List.mem_cons.mp ht with h1 | h1
        · subst h1; rw [hj]; decide
        · have hlen2 : rest.length ≤ n := by
            simp only [List.length_cons] at hlen; omega
          exact ih rest hlen2 _ a hp t h1 hh
      · rw [if_neg hj] at hp
        by_cases hu : tok = "--user" ∨ tok = "-u"
        · rw [if_pos hu] at hp
          cases rest with
          | nil => exact Except.noConfusion hp
          | cons v rest2 =>
            simp only [] at hp
            by_cases hv : hyphenStart v = true
            · rw [if_pos hv] at hp
              exact Except.noConfusion hp
            · rw [if_neg hv] at hp
              rcases List.mem_cons.mp ht with h1 | h1
              · subst h1
                rcases hu with hu | hu <;> rw [hu] <;> decide
              · rcases List.mem_cons.mp h1 with h2 | h2
                · subst h2; exact absurd hh hv
                · have hlen2 : rest2.length ≤ n := by
                    simp only [List.length_cons] at hlen; omega
                  exact ih rest2 hlen2 _ a hp t h2 hh
        · rw [if_neg hu] at hp
          exact Except.noConfusion hp

/-- Helper: an argument list holding an unrecognized flag token, with no
help request present, fails to parse. -/
theorem parseArgs_fails_of_unrecognized (argv : List String) (t : String)
    (ht : t ∈ argv) (hh : hyphenStart t = true)
    (hr : recognizedFlag t = false) (hnh : "--help" ∉ argv) :
    ∃ e, parseArgs argv = ParseResult.error e := by
  rw [parseArgs, if_neg hnh]
  cases hres : parseLoop argv (Args.mk "World" false) with
  | ok a =>
    have := parseLoop_ok_flags argv.length argv (Nat.le_refl _) _ a hres t ht hh
    rw [hr] at this
    exact absurd this (by decide)
  | error e => exact ⟨e, rfl⟩

/-- Claim C5 (amended): for every argument list containing a flag token
that is not one of the recognized options and not containing a help
request, argument parsing fails: nothing is written to standard output,
a diagnostic is written to standard error, and the exit status is
non-zero. -/
theorem c5_unknown_flag_fails (argv : List String) (t : String)
    (ht : t ∈ argv) (hh : hyphenStart t = true)
    (hr : recognizedFlag t = false) (hnh : "--help" ∉ argv) :
    (runArgv argv).stdout = [] ∧ (runArgv argv).stderr ≠ [] ∧
      (runArgv argv).exitCode ≠ 0 := by
  obtain ⟨e, he⟩ := parseArgs_fails_of_unrecognized argv t ht hh hr hnh
  rw [runArgv, he]
  refine ⟨rfl, ?_, ?_⟩
  · show ([errMsg e] : List String) ≠ []
    intro hcon
    exact List.noConfusion hcon
  · show (2 : Nat) ≠ 0
    decide

/-- Witness for C5 (amended) at the argument list ["--bogus"]. -/
theorem c5_unknown_flag_fails_witness :
    (runArgv ["--bogus"]).stdout = [] ∧ (runArgv ["--bogus"]).stderr ≠ [] ∧
      (runArgv ["--bogus"]).exitCode ≠ 0 :=
  c5_unknown_flag_fails ["--bogus"] "--bogus" (by decide) (by decide)
    (by decide) (by decide)

/-- Counterexample to C5 as stated: the argument list
["--help", "--bogus"] contains the unrecognized flag "--bogus", yet the
help request takes precedence, so the run exits with status 0 and does
write a line (the usage text) to standard output. -/
theorem c5_counterexample_help_precedence :
    hyphenStart "--bogus" = true ∧ recognizedFlag "--bogus" = false ∧
      "--bogus" ∈ (["--help", "--bogus"] : List String) ∧
      (runArgv ["--help", "--bogus"]).exitCode = 0 ∧
      (runArgv ["--help", "--bogus"]).stdout = [usageText] := by
  refine ⟨by decide, by decide, by decide, ?_, ?_⟩ <;> rfl

/-- Helper: the usage text is not a greeting line. -/
theorem usage_ne_greeting (N : String) : usageText ≠ greeting N := by
  intro h
  have h1 := congrArg (fun s => s.data.head?) h
  have h2 : (some 'U' : Option Char) = some 'H' := h1
  exact absurd h2 (by decide)

/-- Claim C6: every argument list containing "--help" makes the program
print the usage text, exit with status 0, and write no greeting line to
standard output. -/
theorem c6_help_exit_zero (argv : List String) (hh : "--help" ∈ argv) :
    (runArgv argv).exitCode = 0 ∧ (runArgv argv).stdout = [usageText] ∧
      ∀ N, greeting N ∉ (runArgv argv).stdout := by
  have hp : parseArgs argv = ParseResult.help := by
    rw [parseArgs, if_pos hh]
  rw [runArgv, hp]
  refine ⟨rfl, rfl, ?_⟩
  intro N hmem
  have : greeting N = usageText := List.mem_singleton.mp hmem
  exact usage_ne_greeting N this.symm

/-- Witness for C6 at the argument list ["--help"]. -/
theorem c6_help_exit_zero_witness :
    (runArgv ["--help"]).exitCode = 0 ∧
      (runArgv ["--help"]).stdout = [usageText] ∧
      ∀ N, greeting N ∉ (runArgv ["--help"]).stdout :=
  c6_help_exit_zero ["--help"] (by decide)

/-- Claim C8: for every string N, the short spelling ["-u", N] parses to
the same result as the long spelling ["--user", N], and the whole run
produces the same output. -/
theorem c8_short_long_equal (N : String) :
    parseArgs ["-u", N] = parseArgs ["--user", N] ∧
      runArgv ["-u", N] = runArgv ["--user", N] := by
  have hp : parseArgs ["-u", N] = parseArgs ["--user", N] := by
    by_cases hN : N = "--help"
    · subst hN; decide
    · have h1 : "--help" ∉ (["-u", N] : List String) := by
        intro hmem
        rcases List.mem_cons.mp hmem with h | h
        · exact absurd h (by decide)
        · exact hN (List.mem_singleton.mp h).symm
      have h2 : "--help" ∉ (["--user", N] : List String) := by
        intro hmem
        rcases List.mem_cons.mp hmem with h | h
        · exact absurd h (by decide)
        · exact hN (List.mem_singleton.mp h).symm
      rw [parseArgs, if_neg h1, parseArgs, if_neg h2]
      by_cases hs : hyphenStart N = true
      · simp [parseLoop, hs]
      · simp [parseLoop, hs]
  refine ⟨hp, ?_⟩
  rw [runArgv, runArgv, hp]

/-- Helper: skipping whitespace leaves a list headed by a non-whitespace
character unchanged. -/
theorem skipWs_cons_false (c : Char) (l : List Char) (h : isWsChar c = false) :
    skipWs (c :: l) = c :: l := by
  rw [skipWs.eq_def]
  simp only []
  rw [if_neg]
  simp [h]

/-- Helper: skipping whitespace drops a leading whitespace character. -/
theorem skipWs_cons_true (c : Char) (l : List Char) (h : isWsChar c = true) :
    skipWs (c :: l) = skipWs l := by
  rw [skipWs.eq_def]
  simp only []
  rw [if_pos]
  simp [h]

/-- Helper: a JSON string-literal body made of characters needing no
escaping, followed by the closing quote, parses to exactly those
characters. -/
theorem parseJsonChars_safe_append (cs rest : List Char)
    (h : ∀ c ∈ cs, JsonSafeChar c) :
    parseJsonChars (cs ++ '"' :: rest) = some (cs, rest) := by
  induction cs with
  | nil =>
    simp only [List.nil_append]
    rw [parseJsonChars.eq_def]
    simp only []
    simp
  | cons c cs ih =>
    obtain ⟨h1, h2, h3⟩ := h c (List.mem_cons_self c cs)
    have htail : ∀ x ∈ cs, JsonSafeChar x := fun x hx => h x (List.mem_cons_of_mem c hx)
    have hlt : ¬ (c.toNat < 32) := Nat.not_lt.mpr h3
    simp only [List.cons_append]
    rw [parseJsonChars.eq_def]
    simp only []
    rw [if_neg h1, if_neg h2, if_neg hlt, ih htail]

/-- Helper: the document printed by the JSON formatter for an
escaping-free message deserializes to the one-member object holding that
message under the key "message". -/
theorem parseStringObject_message (m : String) (h : ∀ c ∈ m.data, JsonSafeChar c) :
    parseStringObject ("\x7b\"message\": \"" ++ m ++ "\"\x7d") = some [("message", m)] := by
  have hdata : ("\x7b\"message\": \"" ++ m ++ "\"\x7d").data
      = '\x7b' :: '"' :: 'm' :: 'e' :: 's' :: 's' :: 'a' :: 'g' :: 'e' :: '"' ::
        ':' :: ' ' :: '"' :: (m.data ++ '"' :: ['\x7d']) := rfl
  have hkey := parseJsonChars_safe_append ['m', 'e', 's', 's', 'a', 'g', 'e']
      (':' :: ' ' :: '"' :: (m.data ++ '"' :: ['\x7d'])) (by decide)
  simp only [List.cons_append, List.nil_append] at hkey
  have hval := parseJsonChars_safe_append m.data ['\x7d'] h
  have swB : ∀ l : List Char, skipWs ('"' :: l) = '"' :: l :=
    fun l => skipWs_cons_false _ _ (by decide)
  have swC : ∀ l : List Char, skipWs (':' :: l) = ':' :: l :=
    fun l => skipWs_cons_false _ _ (by decide)
  have swD : ∀ l : List Char, skipWs (' ' :: l) = skipWs l :=
    fun l => skipWs_cons_true _ _ (by decide)
  have swE : ∀ l : List Char, skipWs ('\x7d' :: l) = '\x7d' :: l :=
    fun l => skipWs_cons_false _ _ (by decide)
  have hmem : parseMember ('"' :: 'm' :: 'e' :: 's' :: 's' :: 'a' :: 'g' :: 'e' :: '"' ::
      ':' :: ' ' :: '"' :: (m.data ++ '"' :: ['\x7d']))
      = some (("message", m), ['\x7d']) := by
    simp only [parseMember, hkey, hval, swB, swC, swD, eq_self_iff_true, if_true]
  have haux : parseMembersAux
      (('"' :: 'm' :: 'e' :: 's' :: 's' :: 'a' :: 'g' :: 'e' :: '"' ::
        ':' :: ' ' :: '"' :: (m.data ++ '"' :: ['\x7d'])).length + 1)
      ('"' :: 'm' :: 'e' :: 's' :: 's' :: 'a' :: 'g' :: 'e' :: '"' ::
        ':' :: ' ' :: '"' :: (m.data ++ '"' :: ['\x7d']))
      = some ([("message", m)], ['\x7d']) := by
    have hF2 : (('\x7d' : Char) = ',') = False := eq_false (by decide)
    simp only [parseMembersAux, hmem, swE, hF2, if_false]
  have hF1 : (('"' : Char) = '\x7d') = False := eq_false (by decide)
  have swA : ∀ l : List Char, skipWs ('\x7b' :: l) = '\x7b' :: l :=
    fun l => skipWs_cons_false _ _ (by decide)
  have swNil : skipWs ([] : List Char) = [] := rfl
  simp only [parseStringObject, hdata, swA, swB, eq_self_iff_true, if_true, hF1,
    if_false, haux, swE, swNil]

/-- Helper: the greeting of an escaping-free name is escaping-free. -/
theorem greeting_safe (N : String) (h1 : jsonSafe N) :
    ∀ c ∈ (greeting N).data, JsonSafeChar c := by
  intro c hc
  have e : (greeting N).data = ("Hello, ".data ++ N.data) ++ "!".data := rfl
  rw [e, List.append_assoc] at hc
  rcases List.mem_append.mp hc with hA | hB
  · have hH : ∀ x ∈ "Hello, ".data, JsonSafeChar x := by decide
    exact hH c hA
  · rcases List.mem_append.mp hB with hN | hE
    · exact h1 c hN
    · have hX : ∀ x ∈ "!".data, JsonSafeChar x := by decide
      exact hX c hE

/-- Claim C2 (amended): for every string N that needs no JSON string
escaping (no double quote, no backslash, no control character) and does
not begin with a hyphen, invoking the program with `--json --user N`
writes exactly one line with exit status 0, and that line deserializes
as JSON to an object with exactly one key "message" whose value is
"Hello, N!". -/
theorem c2_json_mode_deserializes (N : String) (h1 : jsonSafe N)
    (h2 : hyphenStart N = false) :
    ∃ line, runArgv ["--json", "--user", N] = RunResult.mk [line] [] 0 ∧
      parseStringObject line = some [("message", "Hello, " ++ N ++ "!")] := by
  have hNh : N ≠ "--help" := by
    intro hN
    rw [hN] at h2
    exact absurd h2 (by decide)
  have hnmem : "--help" ∉ (["--json", "--user", N] : List String) := by
    intro hmem
    rcases List.mem_cons.mp hmem with hx | hx
    · exact absurd hx (by decide)
    · rcases List.mem_cons.mp hx with hy | hy
      · exact absurd hy (by decide)
      · exact hNh (List.mem_singleton.mp hy).symm
  have hloop : parseLoop ["--json", "--user", N] (Args.mk "World" false)
      = Except.ok (Args.mk N true) := by
    simp [parseLoop, h2]
  have hrun : runArgv ["--json", "--user", N]
      = RunResult.mk ["\x7b\"message\": \"" ++ ("Hello, " ++ N ++ "!") ++ "\"\x7d"] [] 0 := by
    rw [runArgv, parseArgs, if_neg hnmem, hloop]
    rfl
  refine ⟨"\x7b\"message\": \"" ++ ("Hello, " ++ N ++ "!") ++ "\"\x7d", hrun, ?_⟩
  exact parseStringObject_message ("Hello, " ++ N ++ "!") (greeting_safe N h1)

/-- Witness for C2 (amended) at N = "Alice". -/
theorem c2_json_mode_deserializes_witness :
    ∃ line, runArgv ["--json", "--user", "Alice"] = RunResult.mk [line] [] 0 ∧
      parseStringObject line = some [("message", "Hello, Alice!")] :=
  c2_json_mode_deserializes "Alice" (by decide) (by decide)

/-- Counterexample to C2 as stated: for N consisting of one double
quote, the line printed by `--json --user N` is the raw interpolation,
which is not valid JSON: deserialization fails instead of producing the
object with message "Hello, N!". -/
theorem c2_counterexample_quote :
    (runArgv ["--json", "--user", "\""]).stdout = ["\x7b\"message\": \"Hello, \"!\"\x7d"] ∧
      parseStringObject "\x7b\"message\": \"Hello, \"!\"\x7d" = none := by
  exact ⟨by decide, by decide⟩

end Greeting
